import Mathlib

/-!
Verification of the UVM assembler/interpreter (`main.py`).

The Python program has two halves:

* `UVMAssembler.parse_instruction` / `UVMAssembler.assemble` turn one line
  of whitespace-separated integer tokens into packed bytes via
  `struct.pack`, skipping blank lines, catching `ValueError` per line and
  letting every other exception escape (aborting the whole batch).
* `UVMInterpreter.run` reads the binary stream in chunks of up to 4 bytes
  (`binary_file.read(4)`) and `execute_instruction` dispatches on the first
  byte of each chunk, mutating an 8-register file and a 1024-cell memory.

The embedding below mirrors that code.  Python exceptions are modelled by
an explicit error type (`ValueError` is the only exception the assembler
catches; `struct.error` and `IndexError` escape).  Python list indexing and
assignment are modelled by `getItem` / `setItem`, which fail with
`indexError` out of bounds, exactly as `list.__getitem__` / `__setitem__`
do for the non-negative indices that occur here.
-/

set_option maxRecDepth 10000

namespace UVM

/-- Equality of `Except` values is decidable when it is on both sides. -/
instance {ε α : Type} [DecidableEq ε] [DecidableEq α] : DecidableEq (Except ε α) := fun
  | .ok a, .ok b =>
    if h : a = b then .isTrue (by rw [h]) else .isFalse (by intro he; cases he; exact h rfl)
  | .ok _, .error _ => .isFalse (by intro he; cases he)
  | .error _, .ok _ => .isFalse (by intro he; cases he)
  | .error e, .error f =>
    if h : e = f then .isTrue (by rw [h]) else .isFalse (by intro he; cases he; exact h rfl)

/-- Python exception kinds that the program can raise.  `valueError` is
raised by `int()` on bad text and by the explicit unknown-opcode raise;
`structError` by `struct.pack`/`struct.unpack`; `indexError` by list
subscripts.  Only `valueError` is caught by `UVMAssembler.assemble`. -/
inductive PyError where
  | valueError
  | indexError
  | structError
deriving DecidableEq, Repr

/-- `parts[i]` on the token list: `IndexError` when the index is out of
range, mirroring the bare `parts[1]` / `parts[2]` accesses in
`parse_instruction`. -/
def item (parts : List Int) (i : Nat) : Except PyError Int :=
  match parts.get? i with
  | some v => .ok v
  | none => .error .indexError

/-- `struct.pack('<B', opcode)`: a single unsigned byte. -/
def packB (opcode : Nat) : Except PyError (List Nat) :=
  .ok [opcode]

/-- `struct.pack('<BB', opcode, b)`: opcode byte then one unsigned byte;
`struct.error` when the value does not fit an unsigned byte. -/
def packBB (opcode : Nat) (b : Int) : Except PyError (List Nat) :=
  if 0 ≤ b ∧ b ≤ 255 then .ok [opcode, b.toNat] else .error .structError

/-- `struct.pack('<BHB', opcode, h, b)`: opcode byte, a little-endian
unsigned 16-bit field, then one unsigned byte; `struct.error` when a value
does not fit its field. -/
def packBHB (opcode : Nat) (h b : Int) : Except PyError (List Nat) :=
  if 0 ≤ h ∧ h ≤ 65535 ∧ 0 ≤ b ∧ b ≤ 255 then
    .ok [opcode, h.toNat % 256, h.toNat / 256, b.toNat]
  else .error .structError

/-- The packed operand byte `(hi << 3) | lo` of opcodes 226 and 4.  In
Python a negative operand makes the packed value negative, so
`struct.pack('<BB', ...)` rejects it; on non-negative operands it is the
ordinary bitwise expression. -/
def packPacked (opcode : Nat) (hi lo : Int) : Except PyError (List Nat) :=
  if hi < 0 ∨ lo < 0 then .error .structError
  else packBB opcode (((hi.toNat <<< 3) ||| lo.toNat : Nat) : Int)

/-- `UVMAssembler.parse_instruction`, on the integer tokens of one line.
Returns the packed bytes of the line, `valueError` for an unknown opcode
(the explicit `raise ValueError`), `indexError` for a missing token and
`structError` for a value `struct.pack` rejects. -/
def parse_instruction (parts : List Int) : Except PyError (List Nat) :=
  match parts.get? 0 with
  | none => .error .indexError
  | some opcode =>
    if opcode = 41 then
      match item parts 1 with
      | .error e => .error e
      | .ok register =>
        match item parts 2 with
        | .error e => .error e
        | .ok constant => packBHB 41 constant register
    else if opcode = 79 then
      match item parts 1 with
      | .error e => .error e
      | .ok register =>
        match item parts 2 with
        | .error e => .error e
        | .ok address => packBHB 79 address register
    else if opcode = 168 then
      match item parts 1 with
      | .error e => .error e
      | .ok address =>
        match item parts 2 with
        | .error e => .error e
        | .ok value => packBHB 168 address value
    else if opcode = 226 then
      match item parts 1 with
      | .error e => .error e
      | .ok register_b =>
        match item parts 2 with
        | .error e => .error e
        | .ok register_c => packPacked 226 register_b register_c
    else if opcode = 201 then
      packB 201
    else if opcode = 4 then
      match item parts 1 with
      | .error e => .error e
      | .ok reg1 =>
        match item parts 2 with
        | .error e => .error e
        | .ok reg2 => packPacked 4 reg1 reg2
    else
      .error .valueError

/-- `UVMAssembler.assemble` over already-tokenised lines: blank lines are
skipped, a `ValueError` from `parse_instruction` is caught and the line
dropped, any other exception escapes and ends the batch.  The result is
the bytes written to the binary file before the loop ended, paired with
the escaped exception if one occurred. -/
def assemble : List (List Int) → List Nat × Option PyError
  | [] => ([], none)
  | line :: rest =>
    if line.isEmpty then assemble rest
    else
      match parse_instruction line with
      | .ok binary => (binary ++ (assemble rest).1, (assemble rest).2)
      | .error .valueError => assemble rest
      | .error .indexError => ([], some .indexError)
      | .error .structError => ([], some .structError)

/-- The interpreter state: `self.registers = [0] * 8`,
`self.memory = [0] * 1024`. -/
structure VMState where
  registers : List Nat
  memory : List Nat
deriving DecidableEq, Repr

/-- The fresh state built by `UVMInterpreter.__init__`. -/
def initState : VMState :=
  { registers := List.replicate 8 0, memory := List.replicate 1024 0 }

/-- Binary digit sum with explicit fuel (enough fuel below, since a number
needs at most as many division steps as its own value). -/
def popcountAux : Nat → Nat → Nat
  | 0, _ => 0
  | _ + 1, 0 => 0
  | fuel + 1, n + 1 => (n + 1) % 2 + popcountAux fuel ((n + 1) / 2)

/-- `bin(x).count('1')`: the number of set bits of `x`. -/
def popcount (n : Nat) : Nat :=
  popcountAux n n

/-- Python list read `l[i]` for the non-negative indices used here. -/
def getItem (l : List Nat) (i : Nat) : Except PyError Nat :=
  match l.get? i with
  | some v => .ok v
  | none => .error .indexError

/-- Python list assignment `l[i] = v` for non-negative `i`. -/
def setItem (l : List Nat) (i : Nat) (v : Nat) : Except PyError (List Nat) :=
  if i < l.length then .ok (l.set i v) else .error .indexError

/-- `struct.unpack('<HB', bytes)`: requires exactly three bytes and reads
a little-endian 16-bit value followed by one byte. -/
def unpackHB (bytes : List Nat) : Except PyError (Nat × Nat) :=
  match bytes with
  | [b1, b2, b3] => .ok (b1 + 256 * b2, b3)
  | _ => .error .structError

/-- `(instruction[1] >> 3) & 0b111`: the high register field of the packed
operand byte. -/
def packedHigh (x : Nat) : Nat :=
  (x >>> 3) &&& 7

/-- `instruction[1] & 0b111`: the low register field of the packed operand
byte. -/
def packedLow (x : Nat) : Nat :=
  x &&& 7

/-- `UVMInterpreter.execute_instruction` on one fetched chunk.  Dispatch is
the if/elif chain on `instruction[0]`; a chunk whose opcode is not in the
table falls through every branch and leaves the state unchanged (the
Python method has no `else`).  `struct.unpack` and list subscripts raise
as in the source. -/
def execute_instruction (instruction : List Nat) (s : VMState) :
    Except PyError VMState :=
  match instruction with
  | [] => .error .indexError
  | opcode :: rest =>
    if opcode = 41 then
      match unpackHB rest with
      | .error e => .error e
      | .ok (constant, register) =>
        match setItem s.registers register constant with
        | .error e => .error e
        | .ok regs => .ok { s with registers := regs }
    else if opcode = 79 then
      match unpackHB rest with
      | .error e => .error e
      | .ok (address, register) =>
        match getItem s.memory address with
        | .error e => .error e
        | .ok value =>
          match setItem s.registers register value with
          | .error e => .error e
          | .ok regs => .ok { s with registers := regs }
    else if opcode = 168 then
      match unpackHB rest with
      | .error e => .error e
      | .ok (address, value) =>
        match setItem s.memory address value with
        | .error e => .error e
        | .ok mem => .ok { s with memory := mem }
    else if opcode = 226 then
      match getItem rest 0 with
      | .error e => .error e
      | .ok x =>
        match getItem s.registers (packedHigh x) with
        | .error e => .error e
        | .ok vb =>
          match getItem s.registers (packedLow x) with
          | .error e => .error e
          | .ok addr =>
            match setItem s.memory addr (popcount vb) with
            | .error e => .error e
            | .ok mem => .ok { s with memory := mem }
    else if opcode = 201 then
      .ok { s with registers := List.replicate 8 0 }
    else if opcode = 4 then
      match getItem rest 0 with
      | .error e => .error e
      | .ok x =>
        match getItem s.registers (packedLow x) with
        | .error e => .error e
        | .ok v =>
          match getItem s.registers (packedHigh x) with
          | .error e => .error e
          | .ok addr =>
            match setItem s.memory addr v with
            | .error e => .error e
            | .ok mem => .ok { s with memory := mem }
    else
      .ok s

/-- `UVMInterpreter.run`: `while instruction := binary_file.read(4)` —
the stream is consumed in chunks of (up to) four bytes and each chunk is
handed to `execute_instruction`, regardless of the opcode's actual
encoded size. -/
def run : List Nat → VMState → Except PyError VMState
  | [], s => .ok s
  | [a], s => execute_instruction [a] s
  | [a, b], s => execute_instruction [a, b] s
  | [a, b, c], s => execute_instruction [a, b, c] s
  | a :: b :: c :: d :: rest, s =>
    match execute_instruction [a, b, c, d] s with
    | .ok s' => run rest s'
    | .error e => .error e

/-- Modelled from the spec: the total encoded size of each opcode
(spec §4.1 — 4 bytes for 41/79/168, 2 bytes for 226/4, 1 byte for 201). -/
def instrSize (opcode : Nat) : Option Nat :=
  if opcode = 41 ∨ opcode = 79 ∨ opcode = 168 then some 4
  else if opcode = 226 ∨ opcode = 4 then some 2
  else if opcode = 201 then some 1
  else none

/-- Modelled from the spec: the fetch loop of spec §4.3 — read one opcode
byte, determine the instruction's remaining byte count from it alone, read
exactly that many more bytes (truncation is fatal), execute, continue at
the next instruction boundary. -/
def specFetchRun : List Nat → VMState → Except PyError VMState
  | [], s => .ok s
  | op :: rest, s =>
    if op = 41 ∨ op = 79 ∨ op = 168 then
      match rest with
      | b1 :: b2 :: b3 :: rest' =>
        match execute_instruction [op, b1, b2, b3] s with
        | .ok s' => specFetchRun rest' s'
        | .error e => .error e
      | _ => .error .structError
    else if op = 226 ∨ op = 4 then
      match rest with
      | x :: rest' =>
        match execute_instruction [op, x] s with
        | .ok s' => specFetchRun rest' s'
        | .error e => .error e
      | _ => .error .structError
    else if op = 201 then
      match execute_instruction [op] s with
      | .ok s' => specFetchRun rest s'
      | .error e => .error e
    else
      .error .valueError

/-- A decoded instruction of the six-opcode ISA, one constructor per
opcode with its operand fields. -/
inductive Instr where
  | load_const (register constant : Nat)
  | read_mem (register address : Nat)
  | write_mem (address value : Nat)
  | popcnt (reg_b reg_c : Nat)
  | reset_regs
  | store_reg_indirect (reg1 reg2 : Nat)
deriving DecidableEq, Repr

/-- The source-line tokens that denote an instruction, in the operand
order `parse_instruction` reads them. -/
def tokensOf : Instr → List Int
  | .load_const register constant => [41, register, constant]
  | .read_mem register address => [79, register, address]
  | .write_mem address value => [168, address, value]
  | .popcnt reg_b reg_c => [226, reg_b, reg_c]
  | .reset_regs => [201]
  | .store_reg_indirect reg1 reg2 => [4, reg1, reg2]

/-- Operand values within their declared bit widths: registers 3 bits,
constants and addresses 16 bits, memory values 8 bits. -/
def validInstr : Instr → Bool
  | .load_const register constant => register ≤ 7 && constant ≤ 65535
  | .read_mem register address => register ≤ 7 && address ≤ 65535
  | .write_mem address value => address ≤ 65535 && value ≤ 255
  | .popcnt reg_b reg_c => reg_b ≤ 7 && reg_c ≤ 7
  | .reset_regs => true
  | .store_reg_indirect reg1 reg2 => reg1 ≤ 7 && reg2 ≤ 7

/-- The interpreter's byte interpretation of one encoded instruction,
field for field as `execute_instruction` extracts them: `'<HB'` after
opcodes 41/79/168, the packed-byte fields after 226/4, nothing after
201. -/
def decodeInstr (instruction : List Nat) : Option Instr :=
  match instruction with
  | [] => none
  | opcode :: rest =>
    if opcode = 41 then
      match rest with
      | [b1, b2, b3] => some (.load_const b3 (b1 + 256 * b2))
      | _ => none
    else if opcode = 79 then
      match rest with
      | [b1, b2, b3] => some (.read_mem b3 (b1 + 256 * b2))
      | _ => none
    else if opcode = 168 then
      match rest with
      | [b1, b2, b3] => some (.write_mem (b1 + 256 * b2) b3)
      | _ => none
    else if opcode = 226 then
      match rest.get? 0 with
      | some x => some (.popcnt (packedHigh x) (packedLow x))
      | none => none
    else if opcode = 201 then
      some .reset_regs
    else if opcode = 4 then
      match rest.get? 0 with
      | some x => some (.store_reg_indirect (packedHigh x) (packedLow x))
      | none => none
    else
      none

/-- A byte list shorter than three entries makes `struct.unpack('<HB', ·)`
fail. -/
theorem unpackHB_short (bytes : List Nat) (h : bytes.length < 3) :
    unpackHB bytes = .error .structError := by
  rcases bytes with _ | ⟨a, _ | ⟨b, _ | ⟨c, t⟩⟩⟩
  · rfl
  · rfl
  · rfl
  · simp only [List.length_cons] at h
    omega

/-- C1: the interpreter's fetch loop is claimed to read one opcode byte,
derive the instruction's remaining byte count from that opcode alone
(0 for 201, 1 for 226/4, 3 for 41/79/168), and consume exactly that many
further bytes, so that every encoded instruction in a mixed-width stream
is consumed exactly once.  The code instead reads fixed chunks of up to
four bytes: on the stream LOAD_CONST r0←7; POPCNT b=0,c=1; LOAD_CONST
r2←9 the third instruction's bytes are swallowed by the second chunk and
register 2 stays 0, while the fetch loop described by the spec
(`specFetchRun`) executes all three instructions and ends with register 2
equal to 9. -/
theorem c1_chunked_fetch_skips_instructions :
    (run [41, 7, 0, 0, 226, 1, 41, 9, 0, 2] initState).map
        (fun s => s.registers.get? 2) = .ok (some 0) ∧
      (specFetchRun [41, 7, 0, 0, 226, 1, 41, 9, 0, 2] initState).map
        (fun s => s.registers.get? 2) = .ok (some 9) :=
  ⟨rfl, rfl⟩

/-- C2: an opcode byte outside {41, 79, 168, 226, 201, 4} is claimed to
abort the run.  The code's `execute_instruction` has no `else` branch, so
the chunk is silently ignored: executing opcode 5 returns the state
unchanged, and a stream whose first chunk starts with opcode 5 runs to
normal completion. -/
theorem c2_unknown_opcode_silently_ignored :
    execute_instruction [5] initState = .ok initState ∧
      run [5, 0, 0, 0, 201] initState = .ok initState :=
  ⟨rfl, rfl⟩

/-- C3: an operand exceeding its declared bit width is claimed to be a
line-level error that leaves the rest of the batch alive.  In the code
only `ValueError` is caught: the line `41 0 70000` (constant 70000 >
65535) raises `struct.error`, which escapes and aborts the whole batch —
the following valid line `201` is never assembled, and the batch output
is empty.  Moreover a register index outside 0–7, such as `41 9 100`,
is not reported at all: it packs successfully. -/
theorem c3_range_violation_aborts_batch :
    assemble [[41, 0, 70000], [201]] = ([], some .structError) ∧
      parse_instruction [41, 9, 100] = .ok [41, 100, 0, 9] :=
  ⟨rfl, rfl⟩

/-- C6: a chunk with fewer bytes than its opcode's declared instruction
size makes the run fail rather than silently misread: `struct.unpack`
raises on a short buffer for the 4-byte opcodes 41/79/168, and the
packed-byte access `instruction[1]` raises `IndexError` for the 2-byte
opcodes 226/4 when the chunk is the lone opcode byte; in particular a
binary artifact consisting of only the byte 41 fails the run. -/
theorem c6_truncated_chunk_fails :
    (∀ op rest s, (op = 41 ∨ op = 79 ∨ op = 168) → rest.length < 3 →
        execute_instruction (op :: rest) s = .error .structError) ∧
      (∀ op s, (op = 226 ∨ op = 4) →
        execute_instruction [op] s = .error .indexError) ∧
      (∀ s, run [41] s = .error .structError) := by
  refine ⟨?_, ?_, ?_⟩
  · rintro op rest s (rfl | rfl | rfl) hlen <;>
      simp [execute_instruction, unpackHB_short rest hlen]
  · rintro op s (rfl | rfl) <;> simp [execute_instruction, getItem]
  · intro s
    show execute_instruction [41] s = .error .structError
    simp [execute_instruction, unpackHB]

/-- C6 witness: the single-byte artifact `[41]` fails the run with the
truncated-read error. -/
theorem c6_witness : run [41] initState = .error .structError :=
  c6_truncated_chunk_fails.2.2 initState

/-- C7: encoding LOAD_CONST with register 3 and constant 300 produces
exactly the bytes `[41, 0x2C, 0x01, 3]` — opcode, little-endian 16-bit
constant, register. -/
theorem c7_load_const_byte_exact :
    parse_instruction [41, 3, 300] = .ok [41, 44, 1, 3] :=
  rfl

/-- C4: when no exception escapes the assembly loop, the bytes written to
the binary file are exactly the concatenation, in source order, of the
encodings of the lines that assembled successfully; every failed or
skipped line contributes nothing. -/
theorem c4_output_is_ordered_concat (lines : List (List Int))
    (h : (assemble lines).2 = none) :
    (assemble lines).1 =
      (lines.filterMap (fun l => (parse_instruction l).toOption)).flatten := by
  induction lines with
  | nil => rfl
  | cons line rest ih =>
    by_cases he : line.isEmpty
    · have hl : line = [] := by
        cases line
        · rfl
        · simp [List.isEmpty] at he
      subst hl
      rw [List.filterMap_cons]
      have hskip : assemble ([] :: rest) = assemble rest := rfl
      rw [hskip] at h ⊢
      simpa using ih h
    · rw [List.filterMap_cons]
      cases hp : parse_instruction line with
      | ok binary =>
        have hun : assemble (line :: rest) =
            (binary ++ (assemble rest).1, (assemble rest).2) := by
          simp only [assemble, if_neg he, hp]
        rw [hun] at h ⊢
        simp only [Except.toOption, List.flatten_cons]
        rw [ih h]
        rfl
      | error e =>
        cases e with
        | valueError =>
          have hun : assemble (line :: rest) = assemble rest := by
            simp only [assemble, if_neg he, hp]
          rw [hun] at h ⊢
          simp only [Except.toOption]
          exact ih h
        | indexError =>
          have hun : assemble (line :: rest) = ([], some .indexError) := by
            simp only [assemble, if_neg he, hp]
          rw [hun] at h
          simp at h
        | structError =>
          have hun : assemble (line :: rest) = ([], some .structError) := by
            simp only [assemble, if_neg he, hp]
          rw [hun] at h
          simp at h

/-- C4 witness: on the lines `41 0 100`, `999 1 2`, `201` the binary
output is exactly the two encoded instructions for opcodes 41 and 201, in
that order; the unknown-opcode line contributes nothing. -/
theorem c4_witness :
    (assemble [[41, 0, 100], [999, 1, 2], [201]]).1 = [41, 100, 0, 0, 201] :=
  (c4_output_is_ordered_concat [[41, 0, 100], [999, 1, 2], [201]] rfl).trans rfl

/-- C5: for every opcode of the table and operand values within their
declared ranges, the interpreter's byte interpretation inverts the
assembler's byte layout: encoding the instruction's source tokens and
decoding the produced bytes yields the original instruction. -/
theorem c5_round_trip (i : Instr) (h : validInstr i = true) :
    ∃ bs, parse_instruction (tokensOf i) = .ok bs ∧ decodeInstr bs = some i := by
  cases i with
  | load_const register constant =>
    simp only [validInstr, Bool.and_eq_true, decide_eq_true_eq] at h
    obtain ⟨hr, hc⟩ := h
    have h1 : (0 : Int) ≤ (constant : Int) := Int.natCast_nonneg _
    have h2 : (constant : Int) ≤ 65535 := by exact_mod_cast hc
    have h3 : (0 : Int) ≤ (register : Int) := Int.natCast_nonneg _
    have h4 : (register : Int) ≤ 255 := by
      exact_mod_cast Nat.le_trans hr (by norm_num)
    refine ⟨[41, constant % 256, constant / 256, register], ?_, ?_⟩
    · simp [parse_instruction, tokensOf, item, packBHB, h1, h2, h3, h4]
    · simp only [decodeInstr]
      norm_num
      rw [Nat.mod_add_div]
  | read_mem register address =>
    simp only [validInstr, Bool.and_eq_true, decide_eq_true_eq] at h
    obtain ⟨hr, ha⟩ := h
    have h1 : (0 : Int) ≤ (address : Int) := Int.natCast_nonneg _
    have h2 : (address : Int) ≤ 65535 := by exact_mod_cast ha
    have h3 : (0 : Int) ≤ (register : Int) := Int.natCast_nonneg _
    have h4 : (register : Int) ≤ 255 := by
      exact_mod_cast Nat.le_trans hr (by norm_num)
    refine ⟨[79, address % 256, address / 256, register], ?_, ?_⟩
    · simp [parse_instruction, tokensOf, item, packBHB, h1, h2, h3, h4]
    · simp only [decodeInstr]
      norm_num
      rw [Nat.mod_add_div]
  | write_mem address value =>
    simp only [validInstr, Bool.and_eq_true, decide_eq_true_eq] at h
    obtain ⟨ha, hv⟩ := h
    have h1 : (0 : Int) ≤ (address : Int) := Int.natCast_nonneg _
    have h2 : (address : Int) ≤ 65535 := by exact_mod_cast ha
    have h3 : (0 : Int) ≤ (value : Int) := Int.natCast_nonneg _
    have h4 : (value : Int) ≤ 255 := by exact_mod_cast hv
    refine ⟨[168, address % 256, address / 256, value], ?_, ?_⟩
    · simp [parse_instruction, tokensOf, item, packBHB, h1, h2, h3, h4]
    · simp only [decodeInstr]
      norm_num
      rw [Nat.mod_add_div]
  | popcnt reg_b reg_c =>
    simp only [validInstr, Bool.and_eq_true, decide_eq_true_eq] at h
    obtain ⟨hb, hc⟩ := h
    interval_cases reg_b <;> interval_cases reg_c <;> exact ⟨_, rfl, rfl⟩
  | reset_regs =>
    exact ⟨[201], rfl, rfl⟩
  | store_reg_indirect reg1 reg2 =>
    simp only [validInstr, Bool.and_eq_true, decide_eq_true_eq] at h
    obtain ⟨h1, h2⟩ := h
    interval_cases reg1 <;> interval_cases reg2 <;> exact ⟨_, rfl, rfl⟩

/-- C5 witness: the round trip at LOAD_CONST register 3, constant 300. -/
theorem c5_witness :
    ∃ bs, parse_instruction (tokensOf (.load_const 3 300)) = .ok bs ∧
      decodeInstr bs = some (.load_const 3 300) :=
  c5_round_trip (.load_const 3 300) rfl

/-- C8: executing POPCNT (opcode 226) with packed operand byte `x` stores
the population count of the register selected by bits 3–5 into the memory
cell addressed by the register selected by bits 0–2. -/
theorem c8_popcnt_semantics (s : VMState) (x addr vb : Nat)
    (hb : s.registers[packedHigh x]? = some vb)
    (hc : s.registers[packedLow x]? = some addr)
    (hm : addr < s.memory.length) :
    execute_instruction [226, x] s =
      .ok { s with memory := s.memory.set addr (popcount vb) } := by
  simp [execute_instruction, getItem, setItem, hb, hc, hm]

/-- C8 witness: with register 0 holding 7 and register 1 holding address
10, POPCNT with reg_b = 0, reg_c = 1 (packed byte 1) writes
`popcount 7 = 3` to memory cell 10. -/
theorem c8_witness :
    execute_instruction [226, 1]
        ⟨[7, 10, 0, 0, 0, 0, 0, 0], List.replicate 1024 0⟩ =
      .ok ⟨[7, 10, 0, 0, 0, 0, 0, 0], (List.replicate 1024 0).set 10 (popcount 7)⟩ ∧
      popcount 7 = 3 :=
  ⟨c8_popcnt_semantics ⟨[7, 10, 0, 0, 0, 0, 0, 0], List.replicate 1024 0⟩ 1 10 7
      rfl rfl (by simp), rfl⟩

/-- C9: for every possible packed operand byte, both register fields that
the interpreter extracts for POPCNT and STORE_REG_INDIRECT are masked to
three bits, so they lie in 0–7 and index the 8-slot register file in
bounds. -/
theorem c9_packed_indices_in_bounds (x : Nat) (h : x < 256) (s : VMState)
    (hr : s.registers.length = 8) :
    packedHigh x < 8 ∧ packedLow x < 8 ∧
      (s.registers.get? (packedHigh x)).isSome = true ∧
      (s.registers.get? (packedLow x)).isSome = true := by
  have h1 : packedHigh x < 8 := Nat.lt_succ_of_le Nat.and_le_right
  have h2 : packedLow x < 8 := Nat.lt_succ_of_le Nat.and_le_right
  have g1 : packedHigh x < s.registers.length := by rw [hr]; exact h1
  have g2 : packedLow x < s.registers.length := by rw [hr]; exact h2
  refine ⟨h1, h2, ?_, ?_⟩
  · rw [List.get?_eq_get g1]
    rfl
  · rw [List.get?_eq_get g2]
    rfl

/-- C9 witness: at the extreme byte 255 both fields are 7 and the lookup
in the initial register file succeeds. -/
theorem c9_witness :
    packedHigh 255 < 8 ∧ packedLow 255 < 8 ∧
      (initState.registers.get? (packedHigh 255)).isSome = true ∧
      (initState.registers.get? (packedLow 255)).isSome = true :=
  c9_packed_indices_in_bounds 255 (by norm_num) initState rfl

/-- Unfolding of the dispatch at opcode 41. -/
theorem execute_41 (rest : List Nat) (s : VMState) :
    execute_instruction (41 :: rest) s =
      (match unpackHB rest with
      | .error e => .error e
      | .ok (constant, register) =>
        match setItem s.registers register constant with
        | .error e => .error e
        | .ok regs => .ok { s with registers := regs }) :=
  rfl

/-- Unfolding of the dispatch at opcode 79. -/
theorem execute_79 (rest : List Nat) (s : VMState) :
    execute_instruction (79 :: rest) s =
      (match unpackHB rest with
      | .error e => .error e
      | .ok (address, register) =>
        match getItem s.memory address with
        | .error e => .error e
        | .ok value =>
          match setItem s.registers register value with
          | .error e => .error e
          | .ok regs => .ok { s with registers := regs }) :=
  rfl

/-- Unfolding of the dispatch at opcode 168. -/
theorem execute_168 (rest : List Nat) (s : VMState) :
    execute_instruction (168 :: rest) s =
      (match unpackHB rest with
      | .error e => .error e
      | .ok (address, value) =>
        match setItem s.memory address value with
        | .error e => .error e
        | .ok mem => .ok { s with memory := mem }) :=
  rfl

/-- Unfolding of the dispatch at opcode 226. -/
theorem execute_226 (rest : List Nat) (s : VMState) :
    execute_instruction (226 :: rest) s =
      (match getItem rest 0 with
      | .error e => .error e
      | .ok x =>
        match getItem s.registers (packedHigh x) with
        | .error e => .error e
        | .ok vb =>
          match getItem s.registers (packedLow x) with
          | .error e => .error e
          | .ok addr =>
            match setItem s.memory addr (popcount vb) with
            | .error e => .error e
            | .ok mem => .ok { s with memory := mem }) :=
  rfl

/-- Unfolding of the dispatch at opcode 201. -/
theorem execute_201 (rest : List Nat) (s : VMState) :
    execute_instruction (201 :: rest) s =
      .ok { s with registers := List.replicate 8 0 } :=
  rfl

/-- Unfolding of the dispatch at opcode 4. -/
theorem execute_4 (rest : List Nat) (s : VMState) :
    execute_instruction (4 :: rest) s =
      (match getItem rest 0 with
      | .error e => .error e
      | .ok x =>
        match getItem s.registers (packedLow x) with
        | .error e => .error e
        | .ok v =>
          match getItem s.registers (packedHigh x) with
          | .error e => .error e
          | .ok addr =>
            match setItem s.memory addr v with
            | .error e => .error e
            | .ok mem => .ok { s with memory := mem }) :=
  rfl

/-- A successful `setItem` writes the requested cell. -/
theorem setItem_ok (l : List Nat) (i v : Nat) (l' : List Nat)
    (h : setItem l i v = .ok l') : l' = l.set i v := by
  unfold setItem at h
  split at h
  · exact (Except.ok.inj h).symm
  · exact Except.noConfusion h

/-- C10: each successfully executed instruction touches only the state
component its semantics names: opcodes 41 and 79 write one register and
leave memory and the other registers untouched; opcodes 168, 226 and 4
write one memory cell and leave the register file and the other cells
untouched; opcode 201 leaves memory untouched. -/
theorem c10_frame (chunk : List Nat) (s s' : VMState)
    (h : execute_instruction chunk s = .ok s') :
    ((chunk.head? = some 41 ∨ chunk.head? = some 79) →
      s'.memory = s.memory ∧
        ∃ r v, s'.registers = s.registers.set r v ∧
          ∀ j, j ≠ r → s'.registers[j]? = s.registers[j]?) ∧
    ((chunk.head? = some 168 ∨ chunk.head? = some 226 ∨ chunk.head? = some 4) →
      s'.registers = s.registers ∧
        ∃ a v, s'.memory = s.memory.set a v ∧
          ∀ j, j ≠ a → s'.memory[j]? = s.memory[j]?) ∧
    (chunk.head? = some 201 → s'.memory = s.memory) := by
  rcases chunk with _ | ⟨op, rest⟩
  · exact absurd h (by simp [execute_instruction])
  refine ⟨?_, ?_, ?_⟩
  · rintro (hop | hop) <;>
      simp only [List.head?_cons, Option.some.injEq] at hop <;> subst hop
    · rw [execute_41] at h
      cases hu : unpackHB rest with
      | error e =>
        simp only [hu] at h
        exact Except.noConfusion h
      | ok cr =>
        obtain ⟨constant, register⟩ := cr
        simp only [hu] at h
        cases hs : setItem s.registers register constant with
        | error e =>
          simp only [hs] at h
          exact Except.noConfusion h
        | ok regs =>
          simp only [hs] at h
          injection h with h
          subst h
          have hset := setItem_ok s.registers register constant regs hs
          subst hset
          exact ⟨rfl, register, constant, rfl,
            fun j hj => List.getElem?_set_ne (Ne.symm hj)⟩
    · rw [execute_79] at h
      cases hu : unpackHB rest with
      | error e =>
        simp only [hu] at h
        exact Except.noConfusion h
      | ok ar =>
        obtain ⟨address, register⟩ := ar
        simp only [hu] at h
        cases hg : getItem s.memory address with
        | error e =>
          simp only [hg] at h
          exact Except.noConfusion h
        | ok value =>
          simp only [hg] at h
          cases hs : setItem s.registers register value with
          | error e =>
            simp only [hs] at h
            exact Except.noConfusion h
          | ok regs =>
            simp only [hs] at h
            injection h with h
            subst h
            have hset := setItem_ok s.registers register value regs hs
            subst hset
            exact ⟨rfl, register, value, rfl,
              fun j hj => List.getElem?_set_ne (Ne.symm hj)⟩
  · rintro (hop | hop | hop) <;>
      simp only [List.head?_cons, Option.some.injEq] at hop <;> subst hop
    · rw [execute_168] at h
      cases hu : unpackHB rest with
      | error e =>
        simp only [hu] at h
        exact Except.noConfusion h
      | ok av =>
        obtain ⟨address, value⟩ := av
        simp only [hu] at h
        cases hs : setItem s.memory address value with
        | error e =>
          simp only [hs] at h
          exact Except.noConfusion h
        | ok mem =>
          simp only [hs] at h
          injection h with h
          subst h
          have hset := setItem_ok s.memory address value mem hs
          subst hset
          exact ⟨rfl, address, value, rfl,
            fun j hj => List.getElem?_set_ne (Ne.symm hj)⟩
    · rw [execute_226] at h
      cases hx : getItem rest 0 with
      | error e =>
        simp only [hx] at h
        exact Except.noConfusion h
      | ok x =>
        simp only [hx] at h
        cases hvb : getItem s.registers (packedHigh x) with
        | error e =>
          simp only [hvb] at h
          exact Except.noConfusion h
        | ok vb =>
          simp only [hvb] at h
          cases ha : getItem s.registers (packedLow x) with
          | error e =>
            simp only [ha] at h
            exact Except.noConfusion h
          | ok addr =>
            simp only [ha] at h
            cases hs : setItem s.memory addr (popcount vb) with
            | error e =>
              simp only [hs] at h
              exact Except.noConfusion h
            | ok mem =>
              simp only [hs] at h
              injection h with h
              subst h
              have hset := setItem_ok s.memory addr (popcount vb) mem hs
              subst hset
              exact ⟨rfl, addr, popcount vb, rfl,
                fun j hj => List.getElem?_set_ne (Ne.symm hj)⟩
    · rw [execute_4] at h
      cases hx : getItem rest 0 with
      | error e =>
        simp only [hx] at h
        exact Except.noConfusion h
      | ok x =>
        simp only [hx] at h
        cases hv : getItem s.registers (packedLow x) with
        | error e =>
          simp only [hv] at h
          exact Except.noConfusion h
        | ok v =>
          simp only [hv] at h
          cases ha : getItem s.registers (packedHigh x) with
          | error e =>
            simp only [ha] at h
            exact Except.noConfusion h
          | ok addr =>
            simp only [ha] at h
            cases hs : setItem s.memory addr v with
            | error e =>
              simp only [hs] at h
              exact Except.noConfusion h
            | ok mem =>
              simp only [hs] at h
              injection h with h
              subst h
              have hset := setItem_ok s.memory addr v mem hs
              subst hset
              exact ⟨rfl, addr, v, rfl,
                fun j hj => List.getElem?_set_ne (Ne.symm hj)⟩
  · intro hop
    simp only [List.head?_cons, Option.some.injEq] at hop
    subst hop
    rw [execute_201] at h
    injection h with h
    subst h
    rfl

/-- C10 witness: LOAD_CONST of 5 into register 2 from the initial state
leaves memory untouched and writes exactly one register. -/
theorem c10_witness :
    (VMState.mk ((List.replicate 8 0).set 2 5) (List.replicate 1024 0)).memory =
        initState.memory ∧
      ∃ r v,
        (VMState.mk ((List.replicate 8 0).set 2 5)
              (List.replicate 1024 0)).registers =
            initState.registers.set r v ∧
          ∀ j, j ≠ r →
            (VMState.mk ((List.replicate 8 0).set 2 5)
                (List.replicate 1024 0)).registers[j]? =
              initState.registers[j]? :=
  (c10_frame [41, 5, 0, 2] initState
      (VMState.mk ((List.replicate 8 0).set 2 5) (List.replicate 1024 0))
      rfl).1 (Or.inl rfl)

end UVM
